import Mathlib

/-!
Verification of the vidus-core client session layer.

Shallow embedding of the parts of the source that the checked properties
talk about: the signaling channel reconnection logic and connection
handshake (Socket.js), the room protocol (Room.js), the roster manager
(People.js), the media pipeline mute/renegotiation paths and media
acquisition error mapping (Media.js), and the generic peer-data event
handler registry (Events.js).

Numbers that the source manipulates as JS floating point (retry delays,
backoff factors) are embedded as rationals; the concrete values involved
(1000, 1.5, 5000, ...) are exactly representable so no rounding is lost.
-/

namespace Vidus

/-! ## Socket: signaling channel reconnection (Socket.js)

The source keeps a reconnectionConfig object: enabled flag, maximum
attempts, base delay, max delay, backoff factor and a current attempt
counter.  The method attemptReconnection bails out when connected or
disabled, bails out when the attempt counter has reached the maximum, and
otherwise schedules one retry timer with delay
min(delay * backoffFactor ^ currentAttempt, maxDelay) and increments the
counter.  It performs no other effect: in particular it emits no
notification on any path.
-/

structure ReconnectionConfig where
  enabled : Bool
  attempts : Nat
  delay : ℚ
  maxDelay : ℚ
  backoffFactor : ℚ
  currentAttempt : Nat
deriving DecidableEq, Repr

/-- The constructor defaults of Socket.js: enabled, 5 attempts, base
delay 1000ms, max delay 5000ms, backoff factor 1.5, counter 0. -/
def defaultReconnectionConfig : ReconnectionConfig :=
  { enabled := true
    attempts := 5
    delay := 1000
    maxDelay := 5000
    backoffFactor := 3 / 2
    currentAttempt := 0 }

/-- The delay expression of attemptReconnection for attempt counter k:
Math.min(delay * Math.pow(backoffFactor, k), maxDelay). -/
def backoffDelay (c : ReconnectionConfig) (k : Nat) : ℚ :=
  min (c.delay * c.backoffFactor ^ k) c.maxDelay

/-- Result of one call to attemptReconnection: the updated config, the
delay of the scheduled retry timer if one was scheduled, and the local
failure notifications raised during the call. -/
structure AttemptResult where
  config : ReconnectionConfig
  scheduled : Option ℚ
  raised : List String
deriving DecidableEq, Repr

/-- Socket.attemptReconnection.  Guard 1: return if connected or retries
disabled.  (The source also clears a pending timer here; timer identity is
not needed for the properties below.)  Guard 2: return once
currentAttempt has reached attempts.  Otherwise compute the capped
exponential delay, increment the counter and schedule the retry.  No
branch raises a notification. -/
def attemptReconnection (connected : Bool) (c : ReconnectionConfig) : AttemptResult :=
  if connected || !c.enabled then
    { config := c, scheduled := none, raised := [] }
  else if c.attempts ≤ c.currentAttempt then
    { config := c, scheduled := none, raised := [] }
  else
    { config := { c with currentAttempt := c.currentAttempt + 1 }
      scheduled := some (backoffDelay c c.currentAttempt)
      raised := [] }

/-- The delays scheduled by n consecutive failed connection attempts
(each connect error invokes attemptReconnection while still offline). -/
def attemptLoopDelays : Nat → ReconnectionConfig → List ℚ
  | 0, _ => []
  | n + 1, c =>
    let r := attemptReconnection false c
    match r.scheduled with
    | some d => d :: attemptLoopDelays n r.config
    | none => attemptLoopDelays n r.config

/-- Repeated invocations of attemptReconnection (no successful connect in
between, so the counter is never reset): the config after n calls. -/
def attemptIterate : Nat → Bool → ReconnectionConfig → ReconnectionConfig
  | 0, _, c => c
  | n + 1, conn, c => attemptIterate n conn (attemptReconnection conn c).config

lemma backoffDelay_mono_default (k : Nat) :
    backoffDelay defaultReconnectionConfig k ≤ backoffDelay defaultReconnectionConfig (k + 1) := by
  show min ((1000 : ℚ) * (3 / 2) ^ k) 5000 ≤ min ((1000 : ℚ) * (3 / 2) ^ (k + 1)) 5000
  refine min_le_min ?_ le_rfl
  have h32 : (1 : ℚ) ≤ 3 / 2 := by norm_num
  have h : ((3 : ℚ) / 2) ^ k ≤ (3 / 2) ^ (k + 1) := pow_le_pow_right₀ h32 (Nat.le_succ k)
  nlinarith

lemma backoffDelay_default_ge (k : Nat) (hk : 4 ≤ k) :
    (5000 : ℚ) ≤ 1000 * (3 / 2) ^ k := by
  induction k, hk using Nat.le_induction with
  | base => norm_num
  | succ n hn ih =>
    have h1 : (1000 : ℚ) * (3 / 2) ^ (n + 1) = (1000 * (3 / 2) ^ n) * (3 / 2) := by
      ring
    rw [h1]
    nlinarith

lemma attemptReconnection_exhausted (conn : Bool) (c : ReconnectionConfig)
    (h : c.attempts ≤ c.currentAttempt) :
    attemptReconnection conn c = { config := c, scheduled := none, raised := [] } := by
  unfold attemptReconnection
  split
  · rfl
  · simp [h]

/-- C1: for every attempt count k from 0 up to the configured maximum,
the signaling reconnection logic schedules the k-th retry with delay
min(base * backoffFactor ^ k, maxDelay); this delay is non-decreasing in
k; and with base 1000, backoffFactor 1.5, maxDelay 5000 the successive
scheduled delays are 1000, 1500, 2250, all later delays being capped at
5000 (equal to the cap from the fifth scheduled delay on). -/
theorem signaling_retry_backoff :
    (∀ (c : ReconnectionConfig) (k : Nat), c.enabled = true → c.currentAttempt = k →
        k < c.attempts →
        (attemptReconnection false c).scheduled =
          some (min (c.delay * c.backoffFactor ^ k) c.maxDelay)) ∧
    (∀ j k : Nat, j ≤ k →
        backoffDelay defaultReconnectionConfig j ≤ backoffDelay defaultReconnectionConfig k) ∧
    attemptLoopDelays 3 defaultReconnectionConfig = [1000, 1500, 2250] ∧
    (∀ k : Nat, 3 ≤ k → backoffDelay defaultReconnectionConfig k ≤ 5000) ∧
    (∀ k : Nat, 4 ≤ k → backoffDelay defaultReconnectionConfig k = 5000) := by
  refine ⟨?_, ?_, ?_, ?_, ?_⟩
  · intro c k hen hcur hlt
    unfold attemptReconnection
    subst hcur
    rw [if_neg, if_neg]
    · simp [backoffDelay]
    · omega
    · simp [hen]
  · intro j k hjk
    exact monotone_nat_of_le_succ backoffDelay_mono_default hjk
  · norm_num [attemptLoopDelays, attemptReconnection, defaultReconnectionConfig, backoffDelay]
  · intro k _
    exact min_le_right _ _
  · intro k hk
    unfold backoffDelay defaultReconnectionConfig
    exact min_eq_right (backoffDelay_default_ge k hk)

/-- Witness for the hypotheses of the C1 theorem at concrete inputs. -/
theorem signaling_retry_backoff_witness :
    (attemptReconnection false defaultReconnectionConfig).scheduled =
      some (min (defaultReconnectionConfig.delay * defaultReconnectionConfig.backoffFactor ^ 0)
        defaultReconnectionConfig.maxDelay) ∧
    backoffDelay defaultReconnectionConfig 1 ≤ backoffDelay defaultReconnectionConfig 4 ∧
    backoffDelay defaultReconnectionConfig 3 ≤ 5000 ∧
    backoffDelay defaultReconnectionConfig 6 = 5000 :=
  ⟨signaling_retry_backoff.1 defaultReconnectionConfig 0 rfl rfl (by norm_num [defaultReconnectionConfig]),
   signaling_retry_backoff.2.1 1 4 (by norm_num),
   signaling_retry_backoff.2.2.2.1 3 (by norm_num),
   signaling_retry_backoff.2.2.2.2 6 (by norm_num)⟩

/-- A reconnection config whose attempt counter has reached the maximum
(the state after the fifth scheduled retry with constructor defaults). -/
def exhaustedReconnectionConfig : ReconnectionConfig :=
  { defaultReconnectionConfig with currentAttempt := 5 }

/-- C4 counterexample: with the attempt counter at the configured
maximum, attemptReconnection schedules nothing, which matches the claim,
but it also raises no terminal failure notification, contradicting the
claim that one is raised. -/
theorem signaling_exhausted_counterexample :
    (attemptReconnection false exhaustedReconnectionConfig).scheduled = none ∧
    (attemptReconnection false exhaustedReconnectionConfig).raised = [] :=
  ⟨rfl, rfl⟩

/-- C4 amended: once the attempt count has reached the configured
maximum, the call returns with the state unchanged, so no further retry
is ever scheduled by any number of subsequent invocations; the code
stops silently, raising no notification on any path. -/
theorem signaling_exhausted_stops :
    (∀ (conn : Bool) (c : ReconnectionConfig), c.attempts ≤ c.currentAttempt →
        (attemptReconnection conn c).scheduled = none ∧
        (attemptIterate · conn c) = fun _ => c) ∧
    (∀ (conn : Bool) (c : ReconnectionConfig), (attemptReconnection conn c).raised = []) := by
  constructor
  · intro conn c h
    constructor
    · rw [attemptReconnection_exhausted conn c h]
    · funext n
      induction n with
      | zero => rfl
      | succ m ih =>
        show attemptIterate m conn (attemptReconnection conn c).config = c
        rw [attemptReconnection_exhausted conn c h]
        exact ih
  · intro conn c
    unfold attemptReconnection
    split
    · rfl
    · split
      · rfl
      · rfl

/-- Witness for the hypotheses of the C4 amended theorem. -/
theorem signaling_exhausted_stops_witness :
    (attemptReconnection false exhaustedReconnectionConfig).scheduled = none ∧
    (attemptIterate · false exhaustedReconnectionConfig) = fun _ => exhaustedReconnectionConfig :=
  signaling_exhausted_stops.1 false exhaustedReconnectionConfig (by norm_num [exhaustedReconnectionConfig, defaultReconnectionConfig])

/-! ## Socket.setConnection: the two-phase connection handshake

setConnection(true, token) registers a once handler for connect and a
once handler for connect_error; each of the two, when it fires, first
runs cleanup(), which removes both.  The connect handler then registers
a handler for the connection:ready signal that resolves the promise; the
connect_error handler rejects the promise.  The embedding runs the
promise through the sequence of socket events it observes: onceArmed
records whether the paired once handlers are still attached, readyArmed
whether the ready handler has been attached, and outcome the promise
state (a settled promise cannot settle again). -/

inductive ConnEvent
  | connect
  | connectError
  | ready
deriving DecidableEq, Repr

inductive ConnOutcome
  | pending
  | resolved
  | rejected
deriving DecidableEq, Repr

structure ConnState where
  onceArmed : Bool
  readyArmed : Bool
  outcome : ConnOutcome
deriving DecidableEq, Repr

/-- State right after setConnection(true, token) registered its handlers
and called socket.open(). -/
def initConnState : ConnState :=
  { onceArmed := true, readyArmed := false, outcome := ConnOutcome.pending }

/-- One socket event hitting the handlers of setConnection. -/
def connStep (s : ConnState) (e : ConnEvent) : ConnState :=
  match e with
  | ConnEvent.connect =>
    if s.onceArmed then { s with onceArmed := false, readyArmed := true } else s
  | ConnEvent.connectError =>
    if s.onceArmed then
      { onceArmed := false, readyArmed := false, outcome := ConnOutcome.rejected }
    else s
  | ConnEvent.ready =>
    if s.readyArmed ∧ s.outcome = ConnOutcome.pending then
      { s with outcome := ConnOutcome.resolved }
    else s

/-- The promise state after a list of socket events. -/
def connRun (evs : List ConnEvent) : ConnState :=
  evs.foldl connStep initConnState

lemma connStep_rejected_fix (e : ConnEvent) :
    connStep { onceArmed := false, readyArmed := false, outcome := ConnOutcome.rejected } e =
      { onceArmed := false, readyArmed := false, outcome := ConnOutcome.rejected } := by
  cases e <;> simp [connStep]

lemma connRun_from_rejected (evs : List ConnEvent) :
    evs.foldl connStep
        { onceArmed := false, readyArmed := false, outcome := ConnOutcome.rejected } =
      { onceArmed := false, readyArmed := false, outcome := ConnOutcome.rejected } := by
  induction evs with
  | nil => rfl
  | cons e rest ih => rw [List.foldl_cons, connStep_rejected_fix]; exact ih

lemma connStep_init_ready :
    connStep initConnState ConnEvent.ready = initConnState := by
  simp [connStep, initConnState]

lemma connRun_quiet_prefix (l : List ConnEvent)
    (hc : ConnEvent.connect ∉ l) (he : ConnEvent.connectError ∉ l) :
    l.foldl connStep initConnState = initConnState := by
  induction l with
  | nil => rfl
  | cons e rest ih =>
    rw [List.foldl_cons]
    cases e with
    | connect => exact absurd (List.mem_cons_self _ _) hc
    | connectError => exact absurd (List.mem_cons_self _ _) he
    | ready =>
      rw [connStep_init_ready]
      exact ih (fun h => hc (List.mem_cons_of_mem _ h))
        (fun h => he (List.mem_cons_of_mem _ h))

lemma connFoldl_readyArmed (s : ConnState) (evs : List ConnEvent)
    (h : (evs.foldl connStep s).readyArmed = true) :
    s.readyArmed = true ∨ ConnEvent.connect ∈ evs := by
  induction evs generalizing s with
  | nil => exact Or.inl h
  | cons e rest ih =>
    rw [List.foldl_cons] at h
    rcases ih (connStep s e) h with h1 | h1
    · cases e with
      | connect => exact Or.inr (List.mem_cons_self _ _)
      | connectError =>
        simp only [connStep] at h1
        split at h1
        · simp at h1
        · exact Or.inl h1
      | ready =>
        simp only [connStep] at h1
        split at h1
        · exact Or.inl h1
        · exact Or.inl h1
    · exact Or.inr (List.mem_cons_of_mem _ h1)

lemma connFoldl_resolved (s : ConnState) (evs : List ConnEvent)
    (h : (evs.foldl connStep s).outcome = ConnOutcome.resolved) :
    s.outcome = ConnOutcome.resolved ∨
      ∃ l₁ l₂, evs = l₁ ++ ConnEvent.ready :: l₂ ∧
        (l₁.foldl connStep s).readyArmed = true := by
  induction evs generalizing s with
  | nil => exact Or.inl h
  | cons e rest ih =>
    rw [List.foldl_cons] at h
    rcases ih (connStep s e) h with h1 | ⟨l₁, l₂, hsplit, harmed⟩
    · cases e with
      | connect =>
        simp only [connStep] at h1
        split at h1
        · exact Or.inl h1
        · exact Or.inl h1
      | connectError =>
        simp only [connStep] at h1
        split at h1
        · simp at h1
        · exact Or.inl h1
      | ready =>
        by_cases hr : s.readyArmed = true ∧ s.outcome = ConnOutcome.pending
        · refine Or.inr ⟨[], rest, rfl, ?_⟩
          simpa using hr.1
        · simp only [connStep, if_neg hr] at h1
          exact Or.inl h1
    · refine Or.inr ⟨e :: l₁, l₂, by rw [hsplit]; rfl, ?_⟩
      simpa using harmed

/-- C3 counterexample: the transport connects, then a transport-level
error arrives before the ready signal.  The claim says the promise
rejects; in the code the connect handler already removed the error
handler, so the promise stays pending forever (neither rejected nor
resolved). -/
theorem setConnection_error_before_ready_counterexample :
    (connRun [ConnEvent.connect, ConnEvent.connectError]).outcome = ConnOutcome.pending ∧
    ConnOutcome.pending ≠ ConnOutcome.rejected := by
  constructor
  · rfl
  · intro h
    cases h

/-- C3 amended: setConnection resolves only after both handshake phases
complete, in order (any resolved run contains a connect event and a
later ready event); and a transport-level error arriving before the
transport-level connect rejects the promise.  An error arriving after
connect but before ready leaves the promise unsettled. -/
theorem setConnection_two_phase :
    (∀ evs : List ConnEvent, (connRun evs).outcome = ConnOutcome.resolved →
        ∃ l₁ l₂, evs = l₁ ++ ConnEvent.ready :: l₂ ∧ ConnEvent.connect ∈ l₁) ∧
    (∀ l₁ l₂ : List ConnEvent, ConnEvent.connect ∉ l₁ → ConnEvent.connectError ∉ l₁ →
        (connRun (l₁ ++ ConnEvent.connectError :: l₂)).outcome = ConnOutcome.rejected) := by
  constructor
  · intro evs h
    rcases connFoldl_resolved initConnState evs h with h1 | ⟨l₁, l₂, hsplit, harmed⟩
    · cases h1
    · refine ⟨l₁, l₂, hsplit, ?_⟩
      rcases connFoldl_readyArmed initConnState l₁ harmed with h2 | h2
      · cases h2
      · exact h2
  · intro l₁ l₂ hc he
    unfold connRun
    rw [List.foldl_append, connRun_quiet_prefix l₁ hc he, List.foldl_cons]
    have hstep : connStep initConnState ConnEvent.connectError =
        { onceArmed := false, readyArmed := false, outcome := ConnOutcome.rejected } := by
      simp [connStep, initConnState]
    rw [hstep, connRun_from_rejected]

/-- Witness for the hypotheses of the C3 amended theorem at concrete
event lists. -/
theorem setConnection_two_phase_witness :
    (∃ l₁ l₂, [ConnEvent.connect, ConnEvent.ready] = l₁ ++ ConnEvent.ready :: l₂ ∧
        ConnEvent.connect ∈ l₁) ∧
    (connRun ([ConnEvent.ready] ++ ConnEvent.connectError :: [])).outcome =
      ConnOutcome.rejected :=
  ⟨setConnection_two_phase.1 [ConnEvent.connect, ConnEvent.ready] rfl,
   setConnection_two_phase.2 [ConnEvent.ready] [] (by decide) (by decide)⟩

/-! ## Room: the room protocol (Room.js)

Room.runRequestedAction converts the kebab-case action name to
camelCase, resolves the action item (cached in Room.actions, else from
the custom registry, else loaded from the built-in actions directory) and
invokes its run method; on success it emits the local
on<ActionName>Action notification.  The whole body sits in a try block
whose catch logs when debug is on and then re-throws the error.  The
handler resolution and cache bookkeeping do not affect what the
dispatcher emits or throws, so the embedding abstracts the resolved
handler as its outcome: normal return or a thrown error. -/

/-- kebabToCamel of index.js: every dash followed by a lowercase letter
is replaced by the uppercased letter. -/
def kebabToCamelChars : List Char → List Char
  | [] => []
  | '-' :: c :: rest =>
    if 'a' ≤ c ∧ c ≤ 'z' then c.toUpper :: kebabToCamelChars rest
    else '-' :: kebabToCamelChars (c :: rest)
  | c :: rest => c :: kebabToCamelChars rest

def kebabToCamel (s : String) : String :=
  String.mk (kebabToCamelChars s.data)

/-- The event name derivation in runRequestedAction: first character
uppercased. -/
def capitalizeFirst (s : String) : String :=
  match s.data with
  | [] => s
  | c :: rest => String.mk (c.toUpper :: rest)

/-- An action envelope: name, free-form attributes. -/
structure ActionReq where
  name : String
  attributes : List (String × String)
deriving DecidableEq, Repr

/-- What one dispatch does: local notifications emitted, error thrown to
the caller (if any), debug log lines. -/
structure ActionDispatch where
  emitted : List String
  thrown : Option String
  logs : List String
deriving DecidableEq, Repr

/-- Room.runRequestedAction with the resolved action item abstracted by
the outcome of its run call. -/
def runRequestedAction (debug : Bool) (handlerRun : Except String Unit)
    (action : ActionReq) : ActionDispatch :=
  let actionName := kebabToCamel action.name
  match handlerRun with
  | Except.error err =>
    { emitted := []
      thrown := some err
      logs := if debug then ["Action run failed!"] else [] }
  | Except.ok _ =>
    { emitted := ["on" ++ capitalizeFirst actionName ++ "Action"]
      thrown := none
      logs := [] }

/-- C2 counterexample: a ban action whose handler throws.  The dispatcher
re-throws the error to its caller and emits no local failure
notification, contradicting the claim that the exception is caught,
reported locally and never propagates. -/
theorem runRequestedAction_counterexample :
    runRequestedAction false (Except.error "handler exploded")
        { name := "ban", attributes := [] } =
      { emitted := [], thrown := some "handler exploded", logs := [] } := by
  rfl

/-- C2 amended: an exception thrown by the resolved handler is caught
inside the dispatcher, logged only when debug is enabled, and then
re-raised to the caller of the dispatcher; no local failure notification is
emitted, and the success notification is emitted exactly when the
handler returns normally. -/
theorem runRequestedAction_rethrows :
    (∀ (debug : Bool) (err : String) (action : ActionReq),
        (runRequestedAction debug (Except.error err) action).thrown = some err ∧
        (runRequestedAction debug (Except.error err) action).emitted = [] ∧
        (runRequestedAction debug (Except.error err) action).logs =
          (if debug then ["Action run failed!"] else [])) ∧
    (∀ (debug : Bool) (action : ActionReq),
        (runRequestedAction debug (Except.ok ()) action).thrown = none ∧
        (runRequestedAction debug (Except.ok ()) action).emitted =
          ["on" ++ capitalizeFirst (kebabToCamel action.name) ++ "Action"]) := by
  constructor
  · intro debug err action
    exact ⟨rfl, rfl, rfl⟩
  · intro debug action
    exact ⟨rfl, rfl⟩

/-! ## Room.left: leaving the room (Room.js)

Room.left first checks the guard (socket present and connected, and a
room id known) and returns false without doing anything if it fails.
Otherwise it runs, inside one try block: People.closeAll(), await
Media.release(), peerJs.disconnect(), shareMedia destroy, and the
left-room server emit.  The catch logs when debug is on and then raises
(the source both re-throws the caught error and, before that, touches an
undefined parent binding, which itself throws; either way the error
leaves Room.left).  A step that throws therefore aborts the steps after
it. -/

inductive LeftStep
  | closeAll
  | mediaRelease
  | peerDisconnect
  | shareDestroy
  | emitLeftRoom
deriving DecidableEq, Repr

/-- The order in which Room.left invokes its teardown steps. -/
def leftStepsOrder : List LeftStep :=
  [LeftStep.closeAll, LeftStep.mediaRelease, LeftStep.peerDisconnect,
   LeftStep.shareDestroy, LeftStep.emitLeftRoom]

/-- Environment of one Room.left call: guard inputs, and the outcome of
each teardown step when invoked. -/
structure LeftEnv where
  socketConnected : Bool
  roomId : Option String
  stepResult : LeftStep → Except String Unit

/-- What the call did: steps actually attempted, in order, and the
overall result (ok b for a normal return of b, error e for a raised
error). -/
structure LeftOutcome where
  attempted : List LeftStep
  result : Except String Bool
deriving Repr

/-- Run steps in sequence inside the try block: the first step that
throws stops execution. -/
def runLeftSteps (f : LeftStep → Except String Unit) :
    List LeftStep → List LeftStep × Except String Unit
  | [] => ([], Except.ok ())
  | s :: rest =>
    match f s with
    | Except.error e => ([s], Except.error e)
    | Except.ok _ =>
      let r := runLeftSteps f rest
      (s :: r.1, r.2)

/-- Room.left. -/
def roomLeft (env : LeftEnv) : LeftOutcome :=
  if env.socketConnected = false ∨ env.roomId = none then
    { attempted := [], result := Except.ok false }
  else
    let r := runLeftSteps env.stepResult leftStepsOrder
    match r.2 with
    | Except.ok _ => { attempted := r.1, result := Except.ok true }
    | Except.error e => { attempted := r.1, result := Except.error e }

/-- A left call where media release throws and everything else would
succeed. -/
def leftEnvMediaFails : LeftEnv :=
  { socketConnected := true
    roomId := some "room-1"
    stepResult := fun s =>
      if s = LeftStep.mediaRelease then Except.error "release failed" else Except.ok () }

/-- C5 counterexample: when the media release step throws, Room.left
never attempts the peer-transport disconnect, the share teardown, or the
server notification, and raises immediately — contradicting the claim
that every step is attempted before the failure is re-raised. -/
theorem roomLeft_counterexample :
    (roomLeft leftEnvMediaFails).attempted = [LeftStep.closeAll, LeftStep.mediaRelease] ∧
    LeftStep.peerDisconnect ∉ (roomLeft leftEnvMediaFails).attempted ∧
    LeftStep.emitLeftRoom ∉ (roomLeft leftEnvMediaFails).attempted ∧
    (roomLeft leftEnvMediaFails).result = Except.error "release failed" := by
  refine ⟨rfl, ?_, ?_, rfl⟩
  · intro h
    rw [show (roomLeft leftEnvMediaFails).attempted =
        [LeftStep.closeAll, LeftStep.mediaRelease] from rfl] at h
    simp at h
  · intro h
    rw [show (roomLeft leftEnvMediaFails).attempted =
        [LeftStep.closeAll, LeftStep.mediaRelease] from rfl] at h
    simp at h

lemma runLeftSteps_all_ok (f : LeftStep → Except String Unit) (l : List LeftStep)
    (h : ∀ s ∈ l, f s = Except.ok ()) :
    runLeftSteps f l = (l, Except.ok ()) := by
  induction l with
  | nil => rfl
  | cons s rest ih =>
    unfold runLeftSteps
    rw [h s (List.mem_cons_self _ _)]
    simp [ih (fun t ht => h t (List.mem_cons_of_mem _ ht))]

lemma runLeftSteps_first_error (f : LeftStep → Except String Unit)
    (pre post : List LeftStep) (s : LeftStep) (e : String)
    (hpre : ∀ t ∈ pre, f t = Except.ok ()) (hs : f s = Except.error e) :
    runLeftSteps f (pre ++ s :: post) = (pre ++ [s], Except.error e) := by
  induction pre with
  | nil =>
    rw [List.nil_append]
    simp only [runLeftSteps]
    rw [hs]
    rfl
  | cons t rest ih =>
    rw [List.cons_append]
    simp only [runLeftSteps]
    rw [hpre t (List.mem_cons_self _ _),
      ih (fun u hu => hpre u (List.mem_cons_of_mem _ hu))]
    rfl

/-- C5 amended: with the guard satisfied, Room.left attempts the five
teardown steps strictly in order; if all succeed it returns true having
attempted all of them, and if a step throws, execution stops at that
step — the steps after it are never attempted — and the error is raised
immediately. -/
theorem roomLeft_sequential :
    (∀ env : LeftEnv, env.socketConnected = true → env.roomId ≠ none →
        (∀ s ∈ leftStepsOrder, env.stepResult s = Except.ok ()) →
        roomLeft env = { attempted := leftStepsOrder, result := Except.ok true }) ∧
    (∀ (env : LeftEnv) (pre post : List LeftStep) (s : LeftStep) (e : String),
        env.socketConnected = true → env.roomId ≠ none →
        leftStepsOrder = pre ++ s :: post →
        (∀ t ∈ pre, env.stepResult t = Except.ok ()) →
        env.stepResult s = Except.error e →
        roomLeft env = { attempted := pre ++ [s], result := Except.error e }) := by
  constructor
  · intro env hconn hroom hok
    unfold roomLeft
    rw [if_neg]
    · rw [runLeftSteps_all_ok env.stepResult leftStepsOrder hok]
    · rw [hconn]
      simp [hroom]
  · intro env pre post s e hconn hroom horder hpre hs
    unfold roomLeft
    rw [if_neg]
    · rw [horder, runLeftSteps_first_error env.stepResult pre post s e hpre hs]
    · rw [hconn]
      simp [hroom]

/-- Witness for the hypotheses of the C5 amended theorem: an environment
where every step succeeds, and one where media release fails. -/
theorem roomLeft_sequential_witness :
    roomLeft { socketConnected := true, roomId := some "r", stepResult := fun _ => Except.ok () } =
      { attempted := leftStepsOrder, result := Except.ok true } ∧
    roomLeft leftEnvMediaFails =
      { attempted := [LeftStep.closeAll] ++ [LeftStep.mediaRelease],
        result := Except.error "release failed" } :=
  ⟨roomLeft_sequential.1 _ rfl (by simp) (fun s _ => rfl),
   roomLeft_sequential.2 leftEnvMediaFails [LeftStep.closeAll]
     [LeftStep.peerDisconnect, LeftStep.shareDestroy, LeftStep.emitLeftRoom]
     LeftStep.mediaRelease "release failed" rfl (by simp [leftEnvMediaFails]) rfl
     (by intro t ht; simp at ht; subst ht; rfl) rfl⟩

/-! ## People: the roster manager (People.js)

A roster entry as People.add builds it: id and peerJsId both set to the
remote peer id, references to the media and data sub-connections
(identified here by numeric handles so that closing can be observed),
the five state flags, display name and creator flag.  The raw media and
data connection objects are opaque; what matters for the properties is
which sub-connections get their close() called. -/

structure Connection where
  id : String
  peerJsId : String
  mediaConnId : Nat
  dataConnId : Nat
  active : Bool
  camMute : Bool
  micMute : Bool
  share : Bool
  record : Bool
  name : String
  isCreator : Bool
deriving DecidableEq, Repr

/-- People.remove: findIndex by peerJsId takes the first matching entry;
if found, close both sub-connections and splice the entry out.  The
returned lists are the media and data connection handles that received a
close() call during this invocation.  An absent peer id matches no entry
and the call does nothing. -/
def peopleRemove : List Connection → String → List Connection × List Nat × List Nat
  | [], _ => ([], [], [])
  | c :: rest, pid =>
    if c.peerJsId = pid then (rest, [c.mediaConnId], [c.dataConnId])
    else
      let r := peopleRemove rest pid
      (c :: r.1, r.2.1, r.2.2)

/-- A member descriptor from RoomInformation. -/
structure RoomUser where
  peerJsId : String
  name : String
  roomCreator : Bool
deriving DecidableEq, Repr

/-- The optional join-data override passed to People.add. -/
structure JoinData where
  name : String
  roomCreator : Bool
deriving DecidableEq, Repr

/-- Array.prototype.find over the room information users. -/
def findRoomUser : List RoomUser → String → Option RoomUser
  | [], _ => none
  | u :: rest, peer => if u.peerJsId = peer then some u else findRoomUser rest peer

/-- Array.prototype.find over the roster, keyed on the id field as in
People.add. -/
def rosterHasId : List Connection → String → Bool
  | [], _ => false
  | c :: rest, peer => if c.id = peer then true else rosterHasId rest peer

/-- People.add: no-op returning true when an entry with that id already
exists; otherwise resolve name and creator flag from RoomInformation
(empty-name and non-creator fallbacks), push the new entry with active
false, camMute true, micMute true, share false, record false, and apply
the join-data overrides for name and creator flag when supplied.  The
open and stream event wiring mutates only later state, not the freshly
pushed entry fields. -/
def peopleAdd (roomUsers : List RoomUser) (conns : List Connection)
    (peer : String) (mediaConnId dataConnId : Nat) (data : Option JoinData) :
    List Connection × Bool :=
  if rosterHasId conns peer then (conns, true)
  else
    let userItem := findRoomUser roomUsers peer
    let userName := match userItem with | some u => u.name | none => ""
    let userType := match userItem with | some u => u.roomCreator | none => false
    let base : Connection :=
      { id := peer, peerJsId := peer
        mediaConnId := mediaConnId, dataConnId := dataConnId
        active := false, camMute := true, micMute := true
        share := false, record := false
        name := userName, isCreator := userType }
    let entry := match data with
      | some d => { base with name := d.name, isCreator := d.roomCreator }
      | none => base
    (conns ++ [entry], true)

lemma peopleRemove_absent (conns : List Connection) (pid : String)
    (h : ∀ c ∈ conns, c.peerJsId ≠ pid) :
    peopleRemove conns pid = (conns, [], []) := by
  induction conns with
  | nil => rfl
  | cons c rest ih =>
    unfold peopleRemove
    rw [if_neg (h c (List.mem_cons_self _ _))]
    simp [ih (fun d hd => h d (List.mem_cons_of_mem _ hd))]

lemma peopleRemove_present (pre post : List Connection) (entry : Connection)
    (hpre : ∀ c ∈ pre, c.peerJsId ≠ entry.peerJsId) :
    peopleRemove (pre ++ entry :: post) entry.peerJsId =
      (pre ++ post, [entry.mediaConnId], [entry.dataConnId]) := by
  induction pre with
  | nil =>
    rw [List.nil_append]
    unfold peopleRemove
    rw [if_pos rfl]
    rfl
  | cons c rest ih =>
    rw [List.cons_append]
    unfold peopleRemove
    rw [if_neg (hpre c (List.mem_cons_self _ _))]
    simp [ih (fun d hd => hpre d (List.mem_cons_of_mem _ hd))]

/-- C6: removing an absent peer id leaves the roster unchanged and closes
nothing (the embedding is a total function: no exception is thrown), and
for a peer id with exactly one roster entry, removing twice closes that
media and data sub-connections of that entry exactly once: the second call
finds nothing, changes nothing and closes nothing. -/
theorem people_remove_idempotent :
    (∀ (conns : List Connection) (pid : String),
        (∀ c ∈ conns, c.peerJsId ≠ pid) →
        peopleRemove conns pid = (conns, [], [])) ∧
    (∀ (pre post : List Connection) (entry : Connection),
        (∀ c ∈ pre, c.peerJsId ≠ entry.peerJsId) →
        (∀ c ∈ post, c.peerJsId ≠ entry.peerJsId) →
        peopleRemove (pre ++ entry :: post) entry.peerJsId =
          (pre ++ post, [entry.mediaConnId], [entry.dataConnId]) ∧
        peopleRemove (pre ++ post) entry.peerJsId = (pre ++ post, [], [])) := by
  constructor
  · exact peopleRemove_absent
  · intro pre post entry hpre hpost
    refine ⟨peopleRemove_present pre post entry hpre, ?_⟩
    refine peopleRemove_absent (pre ++ post) entry.peerJsId ?_
    intro c hc
    rcases List.mem_append.mp hc with h | h
    · exact hpre c h
    · exact hpost c h

/-- Witness for the hypotheses of the C6 theorem at a concrete roster. -/
theorem people_remove_idempotent_witness :
    peopleRemove [] "p9" = ([], [], []) ∧
    (peopleRemove
        ([] ++ { id := "p1", peerJsId := "p1", mediaConnId := 10, dataConnId := 11
                 active := true, camMute := false, micMute := false
                 share := false, record := false
                 name := "Alice", isCreator := true } :: []) "p1" =
      ([] ++ [], [10], [11]) ∧
    peopleRemove ([] ++ []) "p1" = ([] ++ [], [], [])) :=
  ⟨people_remove_idempotent.1 [] "p9" (by intro c hc; cases hc),
   people_remove_idempotent.2 [] []
     { id := "p1", peerJsId := "p1", mediaConnId := 10, dataConnId := 11
       active := true, camMute := false, micMute := false
       share := false, record := false
       name := "Alice", isCreator := true }
     (by intro c hc; cases hc) (by intro c hc; cases hc)⟩

/-- C10: an entry freshly created by People.add (peer id not already in
the roster) starts muted and inactive: camMute true, micMute true, share
false, record false, active false — whether or not join-data overrides
are supplied, since those only override name and creator flag. -/
theorem people_add_fresh_entry_defaults :
    ∀ (roomUsers : List RoomUser) (conns : List Connection) (peer : String)
      (m d : Nat) (data : Option JoinData),
      rosterHasId conns peer = false →
      ∃ entry : Connection,
        (peopleAdd roomUsers conns peer m d data).1 = conns ++ [entry] ∧
        entry.id = peer ∧ entry.camMute = true ∧ entry.micMute = true ∧
        entry.share = false ∧ entry.record = false ∧ entry.active = false := by
  intro roomUsers conns peer m d data h
  unfold peopleAdd
  rw [h]
  cases data with
  | none => exact ⟨_, rfl, rfl, rfl, rfl, rfl, rfl, rfl⟩
  | some jd => exact ⟨_, rfl, rfl, rfl, rfl, rfl, rfl, rfl⟩

/-- Witness for the hypothesis of the C10 theorem: adding peer p2 to an
empty roster, with and without join data. -/
theorem people_add_fresh_entry_defaults_witness :
    (∃ entry : Connection,
        (peopleAdd [{ peerJsId := "p2", name := "Bob", roomCreator := false }] []
            "p2" 3 4 none).1 = [] ++ [entry] ∧
        entry.id = "p2" ∧ entry.camMute = true ∧ entry.micMute = true ∧
        entry.share = false ∧ entry.record = false ∧ entry.active = false) ∧
    (∃ entry : Connection,
        (peopleAdd [] [] "p2" 3 4
            (some { name := "Bobby", roomCreator := true })).1 = [] ++ [entry] ∧
        entry.id = "p2" ∧ entry.camMute = true ∧ entry.micMute = true ∧
        entry.share = false ∧ entry.record = false ∧ entry.active = false) :=
  ⟨people_add_fresh_entry_defaults
      [{ peerJsId := "p2", name := "Bob", roomCreator := false }] [] "p2" 3 4 none rfl,
   people_add_fresh_entry_defaults [] [] "p2" 3 4
      (some { name := "Bobby", roomCreator := true }) rfl⟩

/-! ## Media: mute toggling and track renegotiation (Media.js)

The mute paths are modelled as the sequence of externally visible
operations they perform.  A peer connection is summarized by its peer id
and whether its RTCPeerConnection currently has a video sender and an
audio sender with a live track (what the findIndex calls in
resetConnectionsVideoAudioMedia inspect). -/

structure PeerConnSenders where
  peerJsId : String
  hasVideoSender : Bool
  hasAudioSender : Bool
deriving DecidableEq, Repr

inductive TrackKind
  | video
  | audio
deriving DecidableEq, Repr

inductive MediaOp
  | replaceTrack (peer : String) (kind : TrackKind)
  | addTrack (peer : String) (kind : TrackKind)
  | sendMuteStatus (peer : String) (camMute micMute : Bool)
  | releaseLocalMedia
  | grabLocalMedia
  | streamLocalVideo
  | stopLocalVideoTracks
  | clearProcessInterval
  | setLocalAudioEnabled (enabled : Bool)
deriving DecidableEq, Repr

/-- Media.resetConnectionsVideoAudioMedia: for every connection, replace
the video sender track or add one if there is no video sender, likewise
for the audio sender, then send the current mute flags over the data
sub-connection. -/
def resetConnectionsVideoAudioMedia (camDisable micDisable : Bool)
    (conns : List PeerConnSenders) : List MediaOp :=
  match conns with
  | [] => []
  | c :: rest =>
    (if c.hasVideoSender then MediaOp.replaceTrack c.peerJsId TrackKind.video
     else MediaOp.addTrack c.peerJsId TrackKind.video) ::
    (if c.hasAudioSender then MediaOp.replaceTrack c.peerJsId TrackKind.audio
     else MediaOp.addTrack c.peerJsId TrackKind.audio) ::
    MediaOp.sendMuteStatus c.peerJsId camDisable micDisable ::
    resetConnectionsVideoAudioMedia camDisable micDisable rest

/-- Media.sendUserMediaMuteStatusByDataConnection. -/
def sendUserMediaMuteStatusOps (camDisable micDisable : Bool)
    (conns : List PeerConnSenders) : List MediaOp :=
  conns.map (fun c => MediaOp.sendMuteStatus c.peerJsId camDisable micDisable)

/-- Media.terminateConnectionsVideoAudioMedia.  Video with the camera
now enabled: release the local stream, re-grab it, and in the grab
callback set the local video element and run the per-connection
replace-or-add pass (the callback runs after the synchronous mute-status
broadcast; the op order here follows execution order).  Video with the
camera now disabled: stop the local video tracks and halt the processing
interval.  Audio: flip the enabled flag of the local audio tracks.  All
paths broadcast the current mute flags to every data sub-connection. -/
def terminateConnectionsVideoAudioMedia (camDisable micDisable : Bool)
    (conns : List PeerConnSenders) (type : TrackKind) : List MediaOp :=
  match type with
  | TrackKind.video =>
    if camDisable = false then
      [MediaOp.releaseLocalMedia, MediaOp.grabLocalMedia] ++
      sendUserMediaMuteStatusOps camDisable micDisable conns ++
      [MediaOp.streamLocalVideo] ++
      resetConnectionsVideoAudioMedia camDisable micDisable conns
    else
      [MediaOp.stopLocalVideoTracks, MediaOp.clearProcessInterval] ++
      sendUserMediaMuteStatusOps camDisable micDisable conns
  | TrackKind.audio =>
    [MediaOp.setLocalAudioEnabled (!micDisable)] ++
    sendUserMediaMuteStatusOps camDisable micDisable conns

/-- Media.muteCamera: set userSettings.camDisable to the new status and
run the video termination path. -/
def muteCamera (newStatus micDisable : Bool) (conns : List PeerConnSenders) : List MediaOp :=
  terminateConnectionsVideoAudioMedia newStatus micDisable conns TrackKind.video

/-- Media.muteMicrophone: set userSettings.micDisable to the new status
and run the audio termination path. -/
def muteMicrophone (camDisable newStatus : Bool) (conns : List PeerConnSenders) : List MediaOp :=
  terminateConnectionsVideoAudioMedia camDisable newStatus conns TrackKind.audio

/-- Is this op a track replace-or-add on the given peer id? -/
def isReplaceOrAdd (pid : String) (op : MediaOp) : Bool :=
  match op with
  | MediaOp.replaceTrack p _ => p = pid
  | MediaOp.addTrack p _ => p = pid
  | _ => false

/-- Is this op a track replace-or-add on the given peer id for the given
track kind? -/
def isReplaceOrAddKind (pid : String) (k : TrackKind) (op : MediaOp) : Bool :=
  match op with
  | MediaOp.replaceTrack p kk => p = pid ∧ kk = k
  | MediaOp.addTrack p kk => p = pid ∧ kk = k
  | _ => false

def replaceOrAddCount (ops : List MediaOp) (pid : String) : Nat :=
  ops.countP (isReplaceOrAdd pid)

def replaceOrAddKindCount (ops : List MediaOp) (pid : String) (k : TrackKind) : Nat :=
  ops.countP (isReplaceOrAddKind pid k)

/-- A single peer connection with both senders present. -/
def singlePeerConn : PeerConnSenders :=
  { peerJsId := "p1", hasVideoSender := true, hasAudioSender := true }

/-- C7 counterexample: unmuting the video (camDisable becomes false) with
one existing connection performs two track replace-or-add operations on
that connection — one for the video sender and one for the audio sender —
not exactly one as the claim states. -/
theorem video_unmute_two_ops_counterexample :
    replaceOrAddCount (muteCamera false false [singlePeerConn]) "p1" = 2 ∧ (2 : Nat) ≠ 1 := by
  constructor
  · rfl
  · intro h
    cases h

lemma countP_sendStatus_zero (p : MediaOp → Bool)
    (hp : ∀ peer cam mic, p (MediaOp.sendMuteStatus peer cam mic) = false)
    (cam mic : Bool) (conns : List PeerConnSenders) :
    (sendUserMediaMuteStatusOps cam mic conns).countP p = 0 := by
  induction conns with
  | nil => rfl
  | cons c rest ih =>
    unfold sendUserMediaMuteStatusOps at ih ⊢
    rw [List.map_cons, List.countP_cons, hp]
    simpa using ih

lemma countP_replaceOrAdd_split (pid : String) (ops : List MediaOp) :
    ops.countP (isReplaceOrAdd pid) =
      ops.countP (isReplaceOrAddKind pid TrackKind.video) +
      ops.countP (isReplaceOrAddKind pid TrackKind.audio) := by
  induction ops with
  | nil => rfl
  | cons op rest ih =>
    rw [List.countP_cons, List.countP_cons, List.countP_cons, ih]
    cases op with
    | replaceTrack p kk =>
      by_cases hp : p = pid
      · cases kk <;> simp [isReplaceOrAdd, isReplaceOrAddKind, hp] <;> omega
      · simp [isReplaceOrAdd, isReplaceOrAddKind, hp]
    | addTrack p kk =>
      by_cases hp : p = pid
      · cases kk <;> simp [isReplaceOrAdd, isReplaceOrAddKind, hp] <;> omega
      · simp [isReplaceOrAdd, isReplaceOrAddKind, hp]
    | sendMuteStatus p cm mm => simp [isReplaceOrAdd, isReplaceOrAddKind]
    | releaseLocalMedia => simp [isReplaceOrAdd, isReplaceOrAddKind]
    | grabLocalMedia => simp [isReplaceOrAdd, isReplaceOrAddKind]
    | streamLocalVideo => simp [isReplaceOrAdd, isReplaceOrAddKind]
    | stopLocalVideoTracks => simp [isReplaceOrAdd, isReplaceOrAddKind]
    | clearProcessInterval => simp [isReplaceOrAdd, isReplaceOrAddKind]
    | setLocalAudioEnabled b => simp [isReplaceOrAdd, isReplaceOrAddKind]

lemma replaceOrAddKindCount_reset (cam mic : Bool) (conns : List PeerConnSenders)
    (pid : String) (k : TrackKind) (hnodup : (conns.map PeerConnSenders.peerJsId).Nodup) :
    (resetConnectionsVideoAudioMedia cam mic conns).countP (isReplaceOrAddKind pid k) =
      if pid ∈ conns.map PeerConnSenders.peerJsId then 1 else 0 := by
  induction conns with
  | nil => rfl
  | cons c rest ih =>
    rw [List.map_cons, List.nodup_cons] at hnodup
    have ihr := ih hnodup.2
    unfold resetConnectionsVideoAudioMedia
    rw [List.countP_cons, List.countP_cons, List.countP_cons, ihr, List.map_cons]
    by_cases hc : c.peerJsId = pid
    · have hrest : pid ∉ rest.map PeerConnSenders.peerJsId := hc ▸ hnodup.1
      cases k <;> cases hv : c.hasVideoSender <;> cases ha : c.hasAudioSender <;>
        simp [isReplaceOrAddKind, hc, hrest]
    · have hne : ¬(pid = c.peerJsId) := fun h => hc h.symm
      cases k <;> cases hv : c.hasVideoSender <;> cases ha : c.hasAudioSender <;>
        simp [isReplaceOrAddKind, hc, hne, List.mem_cons]

/-- C7 amended: unmuting the video performs, per existing connection,
exactly one video-track replace-or-add and additionally exactly one
audio-track replace-or-add (two sender operations in total); toggling
audio mute, in either direction, performs no track replace-or-add on any
connection — it only flips the local audio track enabled flag and
broadcasts the mute flags. -/
theorem mute_toggle_renegotiation :
    (∀ (micDisable : Bool) (conns : List PeerConnSenders) (pid : String),
        (conns.map PeerConnSenders.peerJsId).Nodup →
        pid ∈ conns.map PeerConnSenders.peerJsId →
        replaceOrAddKindCount (muteCamera false micDisable conns) pid TrackKind.video = 1 ∧
        replaceOrAddKindCount (muteCamera false micDisable conns) pid TrackKind.audio = 1 ∧
        replaceOrAddCount (muteCamera false micDisable conns) pid = 2) ∧
    (∀ (camDisable newStatus : Bool) (conns : List PeerConnSenders) (pid : String),
        replaceOrAddCount (muteMicrophone camDisable newStatus conns) pid = 0) := by
  constructor
  · intro micDisable conns pid hnodup hmem
    have hcount : ∀ k : TrackKind,
        replaceOrAddKindCount (muteCamera false micDisable conns) pid k = 1 := by
      intro k
      unfold muteCamera terminateConnectionsVideoAudioMedia
      rw [if_pos rfl]
      unfold replaceOrAddKindCount
      rw [List.countP_append, List.countP_append, List.countP_append]
      have h1 : ([MediaOp.releaseLocalMedia,
          MediaOp.grabLocalMedia] : List MediaOp).countP (isReplaceOrAddKind pid k) = 0 := rfl
      have h2 : (sendUserMediaMuteStatusOps false micDisable conns).countP
          (isReplaceOrAddKind pid k) = 0 :=
        countP_sendStatus_zero _ (fun _ _ _ => rfl) _ _ _
      have h3 : ([MediaOp.streamLocalVideo] : List MediaOp).countP
          (isReplaceOrAddKind pid k) = 0 := rfl
      rw [h1, h2, h3, replaceOrAddKindCount_reset false micDisable conns pid k hnodup,
        if_pos hmem]
    refine ⟨hcount TrackKind.video, hcount TrackKind.audio, ?_⟩
    unfold replaceOrAddCount
    rw [countP_replaceOrAdd_split]
    have hv := hcount TrackKind.video
    have ha := hcount TrackKind.audio
    unfold replaceOrAddKindCount at hv ha
    rw [hv, ha]
  · intro camDisable newStatus conns pid
    unfold muteMicrophone terminateConnectionsVideoAudioMedia replaceOrAddCount
    rw [List.countP_append]
    have h1 : ([MediaOp.setLocalAudioEnabled (!newStatus)] : List MediaOp).countP
        (isReplaceOrAdd pid) = 0 := rfl
    have h2 : (sendUserMediaMuteStatusOps camDisable newStatus conns).countP
        (isReplaceOrAdd pid) = 0 :=
      countP_sendStatus_zero _ (fun _ _ _ => rfl) _ _ _
    rw [h1, h2]

/-- Witness for the hypotheses of the C7 amended theorem at a concrete
roster of one connection. -/
theorem mute_toggle_renegotiation_witness :
    (replaceOrAddKindCount (muteCamera false false [singlePeerConn]) "p1" TrackKind.video = 1 ∧
     replaceOrAddKindCount (muteCamera false false [singlePeerConn]) "p1" TrackKind.audio = 1 ∧
     replaceOrAddCount (muteCamera false false [singlePeerConn]) "p1" = 2) ∧
    replaceOrAddCount (muteMicrophone false true [singlePeerConn]) "p1" = 0 :=
  ⟨mute_toggle_renegotiation.1 false [singlePeerConn] "p1" (by simp) (by simp [singlePeerConn]),
   mute_toggle_renegotiation.2 false true [singlePeerConn] "p1"⟩

/-! ## Media.grab: acquisition failure mapping (Media.js)

The catch block of Media.grab looks the error name up in the
mediaGrabErrors table (Array.prototype.find with Array.prototype.includes
on the name list) and returns the matched message, falling back to the
raw error name when the lookup misses or the message is empty; nothing is
re-thrown. -/

/-- The mediaGrabErrors table, verbatim (including the trailing space of
the second message). -/
def mediaGrabErrors : List (List String × String) :=
  [(["NotFoundError", "DevicesNotFoundError"], "required track is missing"),
   (["NotReadableError", "TrackStartError"], "webcam or mic are already in use "),
   (["OverconstrainedError", "ConstraintNotSatisfiedError"],
     "constraints can not be satisfied by avb. devices"),
   (["NotAllowedError", "PermissionDeniedError"], "permission denied in browser"),
   (["TypeError"], "empty constraints object")]

/-- The five taxonomy messages. -/
def taxonomyMessages : List String := mediaGrabErrors.map Prod.snd

/-- Array.prototype.find over the error table: first entry whose name
list includes the error name. -/
def findGrabError : List (List String × String) → String → Option (List String × String)
  | [], _ => none
  | e :: rest, n => if n ∈ e.1 then some e else findGrabError rest n

/-- The value returned out of the catch block: the matched message when
the lookup hits (the JS falsy fallback to the error name only matters
for an empty message, and no table message is empty), else the raw error
name. -/
def grabFailureMessage (errorName : String) : String :=
  match findGrabError mediaGrabErrors errorName with
  | some e => if e.2 = "" then errorName else e.2
  | none => errorName

/-- Outcome of Media.grab with the getUserMedia call abstracted: a
processed stream handle on success, or the descriptive message returned
as a value (never a thrown error) on failure. -/
inductive GrabResult
  | stream (handle : Nat)
  | message (text : String)
deriving DecidableEq, Repr

/-- Media.grab, parameterized by the outcome of the device acquisition
(ok with a stream handle, or error with the DOMException name). -/
def grab (acquisition : Except String Nat) : GrabResult :=
  match acquisition with
  | Except.ok s => GrabResult.stream s
  | Except.error name => GrabResult.message (grabFailureMessage name)

lemma findGrabError_mem (l : List (List String × String)) (n : String)
    (e : List String × String) (h : findGrabError l n = some e) : e ∈ l := by
  induction l with
  | nil => cases h
  | cons x rest ih =>
    unfold findGrabError at h
    split at h
    · cases h
      exact List.mem_cons_self _ _
    · exact List.mem_cons_of_mem _ (ih h)

lemma mediaGrabErrors_messages (e : List String × String) (h : e ∈ mediaGrabErrors) :
    e.2 ≠ "" ∧ e.2 ∈ taxonomyMessages := by
  fin_cases h <;> constructor <;> simp [taxonomyMessages, mediaGrabErrors]

/-- C9 counterexample: an AbortError (a failure getUserMedia can raise)
is not in the table; grab returns the raw error name, which is none of
the five taxonomy messages — so not every acquisition failure maps into
the fixed taxonomy. -/
theorem grab_unknown_error_counterexample :
    grab (Except.error "AbortError") = GrabResult.message "AbortError" ∧
    "AbortError" ∉ taxonomyMessages := by
  constructor
  · rfl
  · simp [taxonomyMessages, mediaGrabErrors]

/-- C9 amended: no acquisition failure is re-thrown — grab always
returns a message value; a failure whose error name appears in the table
returns the taxonomy message of that entry; a failure with any other error
name returns the raw error name instead of a taxonomy message. -/
theorem grab_error_mapping :
    (∀ name : String, ∃ text, grab (Except.error name) = GrabResult.message text) ∧
    (∀ (name : String) (entry : List String × String),
        findGrabError mediaGrabErrors name = some entry →
        grab (Except.error name) = GrabResult.message entry.2 ∧
        entry.2 ∈ taxonomyMessages) ∧
    (∀ name : String, findGrabError mediaGrabErrors name = none →
        grab (Except.error name) = GrabResult.message name) := by
  refine ⟨?_, ?_, ?_⟩
  · intro name
    exact ⟨grabFailureMessage name, rfl⟩
  · intro name entry h
    have hmem := mediaGrabErrors_messages entry (findGrabError_mem _ _ _ h)
    constructor
    · show GrabResult.message (grabFailureMessage name) = GrabResult.message entry.2
      unfold grabFailureMessage
      rw [h]
      simp [hmem.1]
    · exact hmem.2
  · intro name h
    show GrabResult.message (grabFailureMessage name) = GrabResult.message name
    unfold grabFailureMessage
    rw [h]

/-- Witness for the hypotheses of the C9 amended theorem at TypeError (a
mapped name) and AbortError (an unmapped name). -/
theorem grab_error_mapping_witness :
    (grab (Except.error "TypeError") =
        GrabResult.message (["TypeError"], "empty constraints object").2 ∧
      (["TypeError"], "empty constraints object").2 ∈ taxonomyMessages) ∧
    grab (Except.error "AbortError") = GrabResult.message "AbortError" :=
  ⟨grab_error_mapping.2.1 "TypeError" (["TypeError"], "empty constraints object") (by decide),
   grab_error_mapping.2.2 "AbortError" (by decide)⟩

/-! ## Events: the generic peer-data handler registry (Events.js)

Events.addEventHandler pushes a record {type, event, method} onto the
events array (no lookup, no replacement); Events.executeHandler locates
a handler with Array.prototype.find — the first record whose type and
event both match — and invokes its method.  Handlers are identified here
by numeric handles, and executeHandler returns the handle of the handler
it invokes (none when no record matches, mirroring the undefined
return). -/

structure EventReg where
  type : String
  event : String
  handlerId : Nat
deriving DecidableEq, Repr

/-- Events.addEventHandler: push onto the end of the array. -/
def addEventHandler (events : List EventReg) (t e : String) (hid : Nat) : List EventReg :=
  events ++ [{ type := t, event := e, handlerId := hid }]

/-- Array.prototype.find of Events.executeHandler. -/
def findEventHandler : List EventReg → String → String → Option EventReg
  | [], _, _ => none
  | r :: rest, t, e =>
    if r.type = t ∧ r.event = e then some r else findEventHandler rest t e

/-- Events.executeHandler: the handler that gets invoked for (type,
event), if any. -/
def executeHandler (events : List EventReg) (t e : String) : Option Nat :=
  (findEventHandler events t e).map EventReg.handlerId

/-- C8 counterexample: register handler 1, then handler 2, under the
same (peerJsData, muteMedia) key; dispatch invokes handler 1, the first
registered, not the most recently registered handler 2. -/
theorem addEventHandler_counterexample :
    executeHandler
        (addEventHandler (addEventHandler [] "peerJsData" "muteMedia" 1)
          "peerJsData" "muteMedia" 2)
        "peerJsData" "muteMedia" = some 1 ∧
    (some 1 : Option Nat) ≠ some 2 := by
  constructor
  · rfl
  · simp

lemma findEventHandler_append (l₁ l₂ : List EventReg) (t e : String) :
    findEventHandler (l₁ ++ l₂) t e =
      match findEventHandler l₁ t e with
      | some r => some r
      | none => findEventHandler l₂ t e := by
  induction l₁ with
  | nil => rfl
  | cons r rest ih =>
    rw [List.cons_append]
    by_cases hr : r.type = t ∧ r.event = e
    · simp [findEventHandler, hr]
    · simp only [findEventHandler, if_neg hr]
      exact ih

/-- C8 amended: registering under an already-registered (type, event)
key does not replace the prior handler — it appends a second record, and
dispatch keeps invoking the first handler registered for that key (first
write wins).  For a fresh key the registered handler is invoked. -/
theorem addEventHandler_first_wins :
    (∀ (events : List EventReg) (t e : String) (hid : Nat) (r : EventReg),
        findEventHandler events t e = some r →
        executeHandler (addEventHandler events t e hid) t e = some r.handlerId) ∧
    (∀ (events : List EventReg) (t e : String) (h₁ h₂ : Nat),
        findEventHandler events t e = none →
        executeHandler (addEventHandler (addEventHandler events t e h₁) t e h₂) t e =
          some h₁) := by
  constructor
  · intro events t e hid r h
    unfold executeHandler addEventHandler
    rw [findEventHandler_append, h]
    rfl
  · intro events t e h₁ h₂ h
    unfold executeHandler addEventHandler
    rw [List.append_assoc, findEventHandler_append, h]
    simp [findEventHandler]

/-- Witness for the hypotheses of the C8 amended theorem. -/
theorem addEventHandler_first_wins_witness :
    executeHandler
        (addEventHandler [{ type := "peerJsData", event := "muteMedia", handlerId := 7 }]
          "peerJsData" "muteMedia" 9)
        "peerJsData" "muteMedia" =
      some ({ type := "peerJsData", event := "muteMedia", handlerId := 7 } : EventReg).handlerId ∧
    executeHandler
        (addEventHandler (addEventHandler [] "peerJsData" "screenShare" 4)
          "peerJsData" "screenShare" 5)
        "peerJsData" "screenShare" = some 4 :=
  ⟨addEventHandler_first_wins.1
      [{ type := "peerJsData", event := "muteMedia", handlerId := 7 }]
      "peerJsData" "muteMedia" 9
      { type := "peerJsData", event := "muteMedia", handlerId := 7 } (by decide),
   addEventHandler_first_wins.2 [] "peerJsData" "screenShare" 4 5 rfl⟩

end Vidus
